import Mathlib

/-!
Verification of the schema type-inference, column configuration, path
generation and argument-validation logic of ogr2bqjson.py, shallowly
embedded in Lean 4.

Python scalar values parsed out of a GeoJSONSeq line's `properties`
member are modelled by `PValue`; Python's runtime `isinstance` checks
are modelled by one Boolean function per check, including the fact that
a Python `bool` is a subclass of `int` (so `isinstance(True, int)` is
`True`).
-/

namespace Ogr2bq

/-- One scalar Python value appearing in a feature's `properties` mapping:
`None`, `str`, `int`, `float` or `bool`. -/
inductive PValue where
  | vnull
  | vstr (s : String)
  | vint (n : Int)
  | vfloat (q : Rat)
  | vbool (b : Bool)
deriving DecidableEq

/-- Python `value is None`. -/
def is_none : PValue → Bool
  | .vnull => true
  | _ => false

/-- Python `isinstance(value, str)`. -/
def isinstance_str : PValue → Bool
  | .vstr _ => true
  | _ => false

/-- Python `isinstance(value, int)`: true for `int` and also for `bool`,
because `bool` is a subclass of `int` in Python. -/
def isinstance_int : PValue → Bool
  | .vint _ => true
  | .vbool _ => true
  | _ => false

/-- Python `isinstance(value, float)`. -/
def isinstance_float : PValue → Bool
  | .vfloat _ => true
  | _ => false

/-- Python `isinstance(value, bool)`. -/
def isinstance_bool : PValue → Bool
  | .vbool _ => true
  | _ => false

/-- Embedding of `get_column_type(value, last_type)` (ogr2bqjson.py lines
599-639).  `last_type = none` models the Python default `None`; the guard
`lt ≠ ""` models Python's truthiness test `if (last_type and ...)`. -/
def get_column_type (value : PValue) (last_type : Option String) : String :=
  let column_type := "UNKNOWN"
  let column_type := if is_none value then "UNKNOWN" else column_type
  let column_type :=
    if isinstance_str value then "STRING"
    else if isinstance_int value then "INTEGER"
    else if isinstance_float value then "FLOAT"
    else if isinstance_bool value then "BOOLEAN"
    else column_type
  match last_type with
  | none => column_type
  | some lt =>
    if lt ≠ "" ∧ lt ≠ column_type then
      if lt = "STRING" then "STRING"
      else if lt = "FLOAT" ∧ column_type = "INTEGER" then "FLOAT"
      else column_type
    else column_type

/-- The running classification a single column goes through in the loop of
`geojson_to_ndjson` (lines 567-576): the fold
`schema[key] = get_column_type(value, schema.get(key))` restricted to one
column, starting from the absent entry (`schema.get(key)` is `None`). -/
def infer_column_type (values : List PValue) : Option String :=
  values.foldl (fun last v => some (get_column_type v last)) none

/-! ### Python dictionaries

A Python `dict` is modelled as an association list with insertion order:
lookup takes the entry whose key matches, assignment replaces the value of
an existing key in place and otherwise appends a new entry at the end, as
CPython dictionaries do. -/

/-- Python `d.get(k)` / `k in d` (lookup side). -/
def dictGet (d : List (String × α)) (k : String) : Option α :=
  (d.find? (fun kv => kv.1 == k)).map (fun kv => kv.2)

/-- Python `d[k] = v`: update in place when the key exists, else append. -/
def dictSet (d : List (String × α)) (k : String) (v : α) : List (String × α) :=
  if (d.find? (fun kv => kv.1 == k)).isSome then
    d.map (fun kv => if kv.1 == k then (kv.1, v) else kv)
  else d ++ [(k, v)]

/-! ### JSON values and `json.dumps`

Feature geometries are arbitrary JSON structures; `Json.dumps` renders one
the way Python's `json.dumps(x, ensure_ascii=False)` does with its default
separators (`", "` and `": "`).  Its only role in the claims is to be the
text stored in the geometry-derived output columns, so the escaping of
special characters inside string payloads is not modelled. -/

/-- A JSON value (the geometry member of a feature). -/
inductive Json where
  | null
  | jbool (b : Bool)
  | jnum (q : Rat)
  | jstr (s : String)
  | jarr (items : List Json)
  | jobj (fields : List (String × Json))

mutual

/-- Python `json.dumps(x, ensure_ascii=False)` with the default separators. -/
def Json.dumps : Json → String
  | .null => "null"
  | .jbool b => if b then "true" else "false"
  | .jnum q => toString q
  | .jstr s => "\"" ++ s ++ "\""
  | .jarr items => "[" ++ dumpsItems items ++ "]"
  | .jobj fields => "\x7b" ++ dumpsFields fields ++ "\x7d"

/-- Comma-separated rendering of a JSON array's items. -/
def dumpsItems : List Json → String
  | [] => ""
  | [x] => Json.dumps x
  | x :: y :: xs => Json.dumps x ++ ", " ++ dumpsItems (y :: xs)

/-- Comma-separated rendering of a JSON object's fields. -/
def dumpsFields : List (String × Json) → String
  | [] => ""
  | [kv] => "\"" ++ kv.1 ++ "\": " ++ Json.dumps kv.2
  | kv :: y :: xs =>
      "\"" ++ kv.1 ++ "\": " ++ Json.dumps kv.2 ++ ", " ++ dumpsFields (y :: xs)

end

/-- A scalar property value as a JSON value. -/
def pvalue_to_json : PValue → Json
  | .vnull => .null
  | .vstr s => .jstr s
  | .vint n => .jnum (n : Rat)
  | .vfloat q => .jnum q
  | .vbool b => .jbool b

/-! ### Records and the row/schema pass of `geojson_to_ndjson` -/

/-- One Record (a parsed GeoJSONSeq line, `line_item` in the source): a
`properties` mapping of scalar values and a `geometry` JSON structure. -/
structure Record where
  properties : List (String × PValue)
  geometry : Json

/-- The whole feature as a JSON value, as it appears on the GeoJSONSeq line
(the value whose dump fills the `geojson` column). -/
def Record.line_item (r : Record) : Json :=
  .jobj [("geometry", r.geometry),
         ("properties", .jobj (r.properties.map (fun kv => (kv.1, pvalue_to_json kv.2))))]

/-- A value of an output row: either a property value copied through, or the
JSON text of a geometry-derived column. -/
inductive RowValue where
  | prop (v : PValue)
  | text (s : String)

/-- The row built for one Record in the loop of `geojson_to_ndjson` (lines
569-584): the properties, then the configured geometry-derived columns
(`row[columns['geometry']] = json.dumps(line_item['geometry'])`, etc.). -/
def build_row (columns : List (String × String)) (r : Record) : List (String × RowValue) :=
  let row := r.properties.foldl (fun row kv => dictSet row kv.1 (.prop kv.2)) []
  let row := match dictGet columns "geometry" with
    | some name => dictSet row name (.text (Json.dumps r.geometry))
    | none => row
  let row := match dictGet columns "geojson" with
    | some name => dictSet row name (.text (Json.dumps r.line_item))
    | none => row
  match dictGet columns "geojson_geometry" with
    | some name => dictSet row name (.text (Json.dumps r.geometry))
    | none => row

/-- One Record's contribution to the running schema (lines 573-576):
`schema[key] = get_column_type(value, schema.get(key))` per property. -/
def update_schema (schema : List (String × String)) (r : Record) : List (String × String) :=
  r.properties.foldl
    (fun schema kv => dictSet schema kv.1 (get_column_type kv.2 (dictGet schema kv.1)))
    schema

/-- Embedding of `geojson_to_ndjson` (lines 538-596) over an already parsed
list of Records: the output rows, and the final schema — the per-property
type fold followed by the fixed assignments
`schema[columns['geometry']] = 'GEOGRAPHY'`,
`schema[columns['geojson']] = 'STRING'`,
`schema[columns['geojson_geometry']] = 'STRING'` for the configured keys. -/
def geojson_to_ndjson (records : List Record) (columns : List (String × String)) :
    List (List (String × RowValue)) × List (String × String) :=
  let rows := records.map (build_row columns)
  let schema := records.foldl update_schema []
  let schema := match dictGet columns "geometry" with
    | some name => dictSet schema name "GEOGRAPHY"
    | none => schema
  let schema := match dictGet columns "geojson" with
    | some name => dictSet schema name "STRING"
    | none => schema
  let schema := match dictGet columns "geojson_geometry" with
    | some name => dictSet schema name "STRING"
    | none => schema
  (rows, schema)

/-! ### `save_schema_files` (lines 753-807)

The two schema artifacts and the UNKNOWN-column warning.  File writes and
prints are I/O; what is embedded is the text each artifact receives and
the list of columns the final warning names. -/

/-- The comma-separated members of a JSON object of strings, with
`json.dump`'s default separators. -/
def schema_json_fields : List (String × String) → String
  | [] => ""
  | [kv] => "\"" ++ kv.1 ++ "\": \"" ++ kv.2 ++ "\""
  | kv :: rest => "\"" ++ kv.1 ++ "\": \"" ++ kv.2 ++ "\"" ++ ", " ++ schema_json_fields rest

/-- The text written to the `_SCHEMA.json` artifact:
`json.dump(schema, json_file)` on a `str -> str` dictionary. -/
def schema_json_text (schema : List (String × String)) : String :=
  "\x7b" ++ schema_json_fields schema ++ "\x7d"

/-- The loop of lines 789-794: accumulate `key + ":" + type + ",\n"` into
the plaintext, and collect every key whose type is `'UNKNOWN'`. -/
def schema_text_loop (schema : List (String × String)) : String × List String :=
  schema.foldl
    (fun acc kv =>
      (acc.1 ++ kv.1 ++ ":" ++ kv.2 ++ ",\n",
       if kv.2 == "UNKNOWN" then acc.2 ++ [kv.1] else acc.2))
    ("", [])

/-- The text written to the `_SCHEMA.txt` artifact: the accumulated lines
with the trailing comma and newline removed — Python `schema_text[:-2]`
(line 797), i.e. all characters but the last two. -/
def schema_plaintext (schema : List (String × String)) : String :=
  let schema_text := (schema_text_loop schema).1
  String.mk (schema_text.data.take (schema_text.data.length - 2))

/-- The columns the final warning lists (`unknown_columns`, lines 790-794). -/
def unknown_columns (schema : List (String × String)) : List String :=
  (schema_text_loop schema).2

/-- Whether the final warning is printed: `len(unknown_columns) > 0`
(line 801). -/
def warning_printed (schema : List (String × String)) : Bool :=
  (unknown_columns schema).length > 0

/-! ### Reserved convert options (lines 10 and 175-179) -/

/-- Embedding of `reserved_convert_options = ['-f', '-of', '-t_srs']` (line 10). -/
def reserved_convert_options : List String := ["-f", "-of", "-t_srs"]

/-- Embedding of `default_column_names` (line 11): the keys a column
configuration may carry. -/
def default_column_names : List String := ["geometry", "geojson", "geojson_geometry"]

/-- Python `needle in haystack` on strings: substring containment. -/
def py_substring (needle haystack : String) : Bool :=
  (List.range (haystack.data.length + 1)).any
    (fun i => needle.data.isPrefixOf (haystack.data.drop i))

/-- The reserved-option check of `get_arg_errors` (lines 175-179): under
Python truthiness the block runs only for a non-empty option string, and
the first reserved directive found as a substring yields the error text. -/
def reserved_option_error (convert_options : String) : Option String :=
  if convert_options == "" then none
  else
    (reserved_convert_options.find? (fun option => py_substring option convert_options)).map
      (fun option =>
        "Invalid Option: \"" ++ option ++
          "\" is reserved and cannot be used within --convert_options / -v")

/-! ### `os.path.splitext`, `is_output_file_safe` and `get_safe_filepath`

The filesystem is modelled by the list `fs` of paths that exist
(`os.path.exists p` becomes `fs.contains p`).  `splitext` follows CPython's
`genericpath._splitext`: the extension starts at the last dot after the
last slash, unless the basename up to that dot is made of dots only.
Python's `f'_{i:02d}'` decimal formatting is embedded by `format_02d`. -/

/-- Python `s.rfind(c)`: index of the last occurrence, `-1` when absent. -/
def last_index_of (cs : List Char) (c : Char) : Int :=
  match cs.reverse.findIdx? (fun x => x == c) with
  | some i => (cs.length : Int) - 1 - i
  | none => -1

/-- Embedding of `os.path.splitext(p)` (CPython `genericpath._splitext` with `sep='/'`,
`extsep='.'`). -/
def splitext (p : String) : String × String :=
  let cs := p.data
  let sepIndex := last_index_of cs '/'
  let dotIndex := last_index_of cs '.'
  if sepIndex < dotIndex then
    let between := (cs.drop (sepIndex + 1).toNat).take (dotIndex - sepIndex - 1).toNat
    if between.any (fun ch => ch != '.') then
      (String.mk (cs.take dotIndex.toNat), String.mk (cs.drop dotIndex.toNat))
    else (p, "")
  else (p, "")

/-- The decimal digit characters. -/
def digit_char (d : Nat) : Char :=
  match d with
  | 0 => '0' | 1 => '1' | 2 => '2' | 3 => '3' | 4 => '4'
  | 5 => '5' | 6 => '6' | 7 => '7' | 8 => '8' | _ => '9'

/-- The decimal digits of `n`, most significant first (Python `str(n)` for a
non-negative integer). -/
def nat_digits_list (n : Nat) : List Char :=
  if n < 10 then [digit_char n]
  else nat_digits_list (n / 10) ++ [digit_char (n % 10)]
termination_by n
decreasing_by exact Nat.div_lt_self (by omega) (by omega)

/-- Python `str(n)` for `n : Nat`. -/
def nat_repr (n : Nat) : String := String.mk (nat_digits_list n)

/-- Python `f'{n:02d}'` for a non-negative `n`: zero-padded to width two,
wider numbers kept as they are. -/
def format_02d (n : Nat) : String :=
  if n < 10 then "0" ++ nat_repr n else nat_repr n

/-- The `i`-th alternative filepath tried by `get_safe_filepath` (line 511):
`f'{path_root}_{i:02d}{extension}'`. -/
def candidate (path_root extension : String) (i : Nat) : String :=
  path_root ++ "_" ++ format_02d i ++ extension

/-- Embedding of `is_output_file_safe(filepath, can_overwrite)` (lines 337-349) over the
modelled filesystem: `can_overwrite or not os.path.exists(filepath)`. -/
def is_output_file_safe (filepath : String) (can_overwrite : Bool) (fs : List String) : Bool :=
  can_overwrite || !(fs.contains filepath)

/-- Reads a decimal digit string back as a number; left inverse of the
formatting, used to justify that distinct indices yield distinct candidate
paths (which is what makes the `while` loop of `get_safe_filepath`
terminate on a finite filesystem). -/
def decode_digits (cs : List Char) : Nat :=
  cs.foldl (fun acc c => acc * 10 + (c.toNat - 48)) 0

theorem digit_char_toNat (d : Nat) (h : d < 10) : (digit_char d).toNat - 48 = d := by
  interval_cases d <;> rfl

theorem decode_digits_append (cs : List Char) (c : Char) :
    decode_digits (cs ++ [c]) = decode_digits cs * 10 + (c.toNat - 48) := by
  simp [decode_digits, List.foldl_append]

theorem decode_digits_nat (n : Nat) : decode_digits (nat_digits_list n) = n := by
  induction n using Nat.strong_induction_on with
  | _ n ih =>
    rw [nat_digits_list]
    split
    · next h =>
        simp [decode_digits, digit_char_toNat n h]
    · next h =>
        rw [decode_digits_append, ih (n / 10) (Nat.div_lt_self (by omega) (by omega)),
          digit_char_toNat (n % 10) (Nat.mod_lt _ (by omega))]
        omega

theorem decode_format_02d (n : Nat) : decode_digits (format_02d n).data = n := by
  unfold format_02d
  split
  · have hd : ("0" ++ nat_repr n).data = '0' :: nat_digits_list n := by
      simp [nat_repr, String.data_append]
    rw [hd]
    have h0 : decode_digits ('0' :: nat_digits_list n) = decode_digits (nat_digits_list n) := by
      simp [decode_digits]
    rw [h0, decode_digits_nat]
  · exact decode_digits_nat n

theorem candidate_inj (pr ex : String) (a b : Nat)
    (h : candidate pr ex a = candidate pr ex b) : a = b := by
  have h' := congrArg String.data h
  simp only [candidate, String.data_append] at h'
  have h3 := List.append_cancel_right h'
  have h4 := List.append_cancel_left h3
  have h5 := congrArg decode_digits h4
  rwa [decode_format_02d, decode_format_02d] at h5

theorem candidate_free_exists (pr ex : String) (fs : List String) (i0 : Nat) :
    ∃ k, candidate pr ex (i0 + k) ∉ fs := by
  by_contra hc
  push_neg at hc
  have hinj : Function.Injective (fun k => candidate pr ex (i0 + k)) := by
    intro a b hab
    have := candidate_inj pr ex _ _ hab
    omega
  have hnd : ((List.range (fs.length + 1)).map (fun k => candidate pr ex (i0 + k))).Nodup :=
    (List.nodup_range _).map hinj
  have hsub : ((List.range (fs.length + 1)).map (fun k => candidate pr ex (i0 + k))) ⊆ fs := by
    intro x hx
    simp only [List.mem_map, List.mem_range] at hx
    obtain ⟨k, _, rfl⟩ := hx
    exact hc k
  have hle := (hnd.subperm hsub).length_le
  simp only [List.length_map, List.length_range] at hle
  omega

theorem safe_candidate_exists (pr ex : String) (co : Bool) (fs : List String) (i0 : Nat) :
    ∃ k, is_output_file_safe (candidate pr ex (i0 + k)) co fs = true := by
  cases co with
  | true => exact ⟨0, rfl⟩
  | false =>
    obtain ⟨k, hk⟩ := candidate_free_exists pr ex fs i0
    refine ⟨k, ?_⟩
    simp [is_output_file_safe, hk]

/-- The `while` loop of `get_safe_filepath` (lines 509-511) entered with
counter `i0` whose candidate is the next to test: it stops at the first
`i ≥ i0` whose candidate is safe to write, which exists because candidates
are pairwise distinct and the filesystem is finite. -/
def safe_loop (path_root extension : String) (can_overwrite : Bool) (fs : List String)
    (i0 : Nat) : String :=
  candidate path_root extension
    (i0 + Nat.find (safe_candidate_exists path_root extension can_overwrite fs i0))

/-- Embedding of `get_safe_filepath(initial_filepath, can_overwrite,
is_candidate)` (lines 479-513): when `is_candidate` the initial path itself
is tested first; afterwards the numbered candidates `_01`, `_02`, … are
tested in order. -/
def get_safe_filepath (initial_filepath : String) (can_overwrite : Bool)
    (is_candidate : Bool) (fs : List String) : String :=
  let pe := splitext initial_filepath
  if is_candidate then
    if is_output_file_safe initial_filepath can_overwrite fs then initial_filepath
    else safe_loop pe.1 pe.2 can_overwrite fs 1
  else safe_loop pe.1 pe.2 can_overwrite fs 1

/-! ### Spec-side descriptions

Definitions in this section follow the words of the spec and of the claims
(never the code); the theorems below compare them with the embedded code. -/

/-- The values of a column that come after its last null value (the whole
list when no value is null). -/
def null_free_suffix (values : List PValue) : List PValue :=
  (values.reverse.takeWhile (fun v => !(is_none v))).reverse

/-- What `infer_column_type` actually computes on a non-empty value list
(proved below): STRING as soon as any value is a string; otherwise only the
values after the last null count — UNKNOWN when there are none, FLOAT when
one of them is a float, INTEGER otherwise (booleans classify as integers
because Python `bool` is a subclass of `int`). -/
def spec_final_type (values : List PValue) : String :=
  if values.any isinstance_str then "STRING"
  else if (null_free_suffix values).isEmpty then "UNKNOWN"
  else if (null_free_suffix values).any isinstance_float then "FLOAT"
  else "INTEGER"

/-- Claim C1 read literally, as the spec states it: STRING if any value was
a string; else FLOAT if some value was a float and every value was a float,
integer or null; else INTEGER if there was an integer and every value was an
integer or null; else BOOLEAN if there was a boolean and every value was a
boolean or null; else UNKNOWN.  (Here a boolean is its own kind of value, as
in the claim's wording.) -/
def c1_claimed_type (values : List PValue) : String :=
  if values.any (fun v => match v with | .vstr _ => true | _ => false) then "STRING"
  else if (values.any (fun v => match v with | .vfloat _ => true | _ => false)) &&
      (values.all (fun v => match v with
        | .vfloat _ => true | .vint _ => true | .vnull => true | _ => false)) then "FLOAT"
  else if (values.any (fun v => match v with | .vint _ => true | _ => false)) &&
      (values.all (fun v => match v with
        | .vint _ => true | .vnull => true | _ => false)) then "INTEGER"
  else if (values.any (fun v => match v with | .vbool _ => true | _ => false)) &&
      (values.all (fun v => match v with
        | .vbool _ => true | .vnull => true | _ => false)) then "BOOLEAN"
  else "UNKNOWN"

/-- The plaintext schema rendering as claim C6 words it: one `name:TYPE`
entry per column, consecutive entries joined by `",\n"`, so every line but
the last ends in a comma and nothing follows the last entry. -/
def joined_schema_lines (schema : List (String × String)) : String :=
  match schema with
  | [] => ""
  | [kv] => kv.1 ++ ":" ++ kv.2
  | kv :: rest => kv.1 ++ ":" ++ kv.2 ++ ",\n" ++ joined_schema_lines rest

/-! ### How one merge step behaves

The four lemmas cover `get_column_type` on every value constructor and
every previous state, and drive all the schema-inference proofs. -/

@[simp] theorem get_column_type_vstr (s : String) (lt : Option String) :
    get_column_type (.vstr s) lt = "STRING" := by
  cases lt with
  | none => rfl
  | some x =>
    simp only [get_column_type, is_none, isinstance_str, if_true, if_false]
    split_ifs with h1 h2 h3 <;> simp_all

@[simp] theorem get_column_type_vnull (lt : Option String) :
    get_column_type .vnull lt = if lt = some "STRING" then "STRING" else "UNKNOWN" := by
  cases lt with
  | none => rfl
  | some x =>
    simp only [get_column_type, is_none, isinstance_str, isinstance_int, isinstance_float,
      isinstance_bool, Option.some.injEq]
    split_ifs with h1 h2 h3 <;> simp_all

@[simp] theorem get_column_type_vint (n : Int) (lt : Option String) :
    get_column_type (.vint n) lt =
      if lt = some "STRING" then "STRING"
      else if lt = some "FLOAT" then "FLOAT" else "INTEGER" := by
  cases lt with
  | none => rfl
  | some x =>
    simp only [get_column_type, is_none, isinstance_str, isinstance_int, Option.some.injEq]
    split_ifs with h1 h2 h3 <;> simp_all

@[simp] theorem get_column_type_vbool (b : Bool) (lt : Option String) :
    get_column_type (.vbool b) lt =
      if lt = some "STRING" then "STRING"
      else if lt = some "FLOAT" then "FLOAT" else "INTEGER" := by
  cases lt with
  | none => rfl
  | some x =>
    simp only [get_column_type, is_none, isinstance_str, isinstance_int, Option.some.injEq]
    split_ifs with h1 h2 h3 <;> simp_all

@[simp] theorem get_column_type_vfloat (q : Rat) (lt : Option String) :
    get_column_type (.vfloat q) lt =
      if lt = some "STRING" then "STRING" else "FLOAT" := by
  cases lt with
  | none => rfl
  | some x =>
    simp only [get_column_type, is_none, isinstance_str, isinstance_int, isinstance_float,
      Option.some.injEq]
    split_ifs with h1 h2 h3 <;> simp_all

theorem null_free_suffix_append (l : List PValue) (v : PValue) :
    null_free_suffix (l ++ [v]) =
      if is_none v then [] else null_free_suffix l ++ [v] := by
  cases h : is_none v <;>
    simp [null_free_suffix, List.takeWhile_cons, h]

theorem infer_column_type_append (l : List PValue) (v : PValue) :
    infer_column_type (l ++ [v]) = some (get_column_type v (infer_column_type l)) := by
  simp [infer_column_type, List.foldl_append]

/-- The exact value of the per-column fold: `UNKNOWN`-resetting on nulls and
the Python classification of booleans as integers included. -/
theorem infer_column_type_eq (values : List PValue) :
    infer_column_type values =
      if values.isEmpty then none else some (spec_final_type values) := by
  induction values using List.reverseRecOn with
  | nil => rfl
  | append_singleton l v ih =>
    rw [infer_column_type_append, ih]
    by_cases hl : l.isEmpty
    · have hl' : l = [] := List.isEmpty_iff.mp hl
      subst hl'
      cases v <;> rfl
    · have hl' : l.isEmpty = false := by simpa using hl
      have hne : (l ++ [v]).isEmpty = false := by
        simp [List.isEmpty_iff]
      rw [hl', if_neg (by simp), hne, if_neg (by simp)]
      by_cases hs : l.any isinstance_str
      · have hspec : spec_final_type l = "STRING" := by simp [spec_final_type, hs]
        cases v <;>
          simp [hspec, spec_final_type, List.any_append, hs]
      · have hs' : l.any isinstance_str = false := by simpa using hs
        by_cases he : (null_free_suffix l).isEmpty
        · have he' : null_free_suffix l = [] := List.isEmpty_iff.mp he
          have hspec : spec_final_type l = "UNKNOWN" := by
            simp [spec_final_type, hs', he']
          cases v <;>
            simp [hspec, spec_final_type, List.any_append, hs', null_free_suffix_append,
              he', is_none, isinstance_str, isinstance_float]
        · have he' : (null_free_suffix l).isEmpty = false := by simpa using he
          by_cases hf : (null_free_suffix l).any isinstance_float
          · have hspec : spec_final_type l = "FLOAT" := by
              simp [spec_final_type, hs', he', hf]
            cases v <;>
              simp [hspec, spec_final_type, List.any_append, hs', null_free_suffix_append,
                he', hf, is_none, isinstance_str, isinstance_float]
          · have hf' : (null_free_suffix l).any isinstance_float = false := by simpa using hf
            have hspec : spec_final_type l = "INTEGER" := by
              simp [spec_final_type, hs', he', hf']
            cases v <;>
              simp [hspec, spec_final_type, List.any_append, hs', null_free_suffix_append,
                he', hf', is_none, isinstance_str, isinstance_float]

theorem perm_any {α : Type} (l1 l2 : List α) (hp : l1.Perm l2) (f : α → Bool) :
    l1.any f = l2.any f := by
  rw [Bool.eq_iff_iff]
  simp only [List.any_eq_true]
  constructor
  · rintro ⟨x, hx, hfx⟩
    exact ⟨x, hp.mem_iff.mp hx, hfx⟩
  · rintro ⟨x, hx, hfx⟩
    exact ⟨x, hp.mem_iff.mpr hx, hfx⟩

theorem null_free_suffix_of_no_null (l : List PValue) (hn : ∀ v ∈ l, is_none v = false) :
    null_free_suffix l = l := by
  unfold null_free_suffix
  rw [List.takeWhile_eq_self_iff.mpr, List.reverse_reverse]
  intro v hv
  simp [hn v (List.mem_reverse.mp hv)]

theorem infix_of_append_left {α : Type} (l₀ : List α) {l₁ l₂ : List α} (h : l₁ <:+: l₂) :
    l₁ <:+: l₀ ++ l₂ := by
  obtain ⟨s, t, rfl⟩ := h
  exact ⟨l₀ ++ s, t, by simp⟩

theorem infix_of_append_right {α : Type} (l₀ : List α) {l₁ l₂ : List α} (h : l₁ <:+: l₂) :
    l₁ <:+: l₂ ++ l₀ := by
  obtain ⟨s, t, rfl⟩ := h
  exact ⟨s, t ++ l₀, by simp⟩

/-! ### Python dictionary lemmas -/

theorem dictGet_nil {α : Type} (k : String) : dictGet ([] : List (String × α)) k = none := rfl

theorem dictGet_cons {α : Type} (kv : String × α) (d : List (String × α)) (k : String) :
    dictGet (kv :: d) k = if kv.1 = k then some kv.2 else dictGet d k := by
  by_cases h : kv.1 = k
  · rw [if_pos h]
    unfold dictGet
    rw [List.find?_cons_of_pos _ (by simpa using h)]
    rfl
  · rw [if_neg h]
    unfold dictGet
    rw [List.find?_cons_of_neg _ (by simpa using h)]

theorem dictGet_map_set_self {α : Type} (d : List (String × α)) (k : String) (v : α) :
    dictGet (d.map (fun kv => if kv.1 == k then (kv.1, v) else kv)) k =
      (dictGet d k).map (fun _ => v) := by
  induction d with
  | nil => rfl
  | cons kv rest ih =>
    simp only [beq_iff_eq] at ih ⊢
    by_cases h : kv.1 = k <;>
      simp [List.map_cons, dictGet_cons, h, ih]

theorem dictGet_map_set_ne {α : Type} (d : List (String × α)) (k k' : String) (v : α)
    (h : k' ≠ k) :
    dictGet (d.map (fun kv => if kv.1 == k then (kv.1, v) else kv)) k' = dictGet d k' := by
  induction d with
  | nil => rfl
  | cons kv rest ih =>
    simp only [beq_iff_eq] at ih ⊢
    by_cases hk : kv.1 = k
    · have h1 : kv.1 ≠ k' := by
        rw [hk]
        exact fun hh => h hh.symm
      simp [List.map_cons, dictGet_cons, hk, h1, Ne.symm h, ih]
    · by_cases hk' : kv.1 = k' <;>
        simp [List.map_cons, dictGet_cons, hk, hk', h, ih]

theorem dictSet_cons_ne {α : Type} (kv : String × α) (d : List (String × α)) (k : String)
    (v : α) (h : kv.1 ≠ k) : dictSet (kv :: d) k v = kv :: dictSet d k v := by
  unfold dictSet
  rw [List.find?_cons_of_neg _ (by simpa using h)]
  by_cases hf : (d.find? (fun kv => kv.1 == k)).isSome
  · rw [if_pos hf, if_pos hf]
    simp [h]
  · rw [if_neg hf, if_neg hf]
    rfl

theorem dictSet_cons_eq {α : Type} (kv : String × α) (d : List (String × α)) (k : String)
    (v : α) (h : kv.1 = k) :
    dictSet (kv :: d) k v =
      (kv.1, v) :: d.map (fun kv2 => if kv2.1 == k then (kv2.1, v) else kv2) := by
  unfold dictSet
  rw [List.find?_cons_of_pos _ (by simpa using h)]
  rw [if_pos (by simp)]
  simp [h]

theorem dictGet_dictSet {α : Type} (d : List (String × α)) (k k' : String) (v : α) :
    dictGet (dictSet d k v) k' = if k' = k then some v else dictGet d k' := by
  induction d with
  | nil =>
    by_cases h : k' = k
    · subst h
      simp [dictSet, dictGet]
    · simp [dictSet, dictGet, h, Ne.symm h]
  | cons kv rest ih =>
    by_cases hk : kv.1 = k
    · rw [dictSet_cons_eq kv rest k v hk]
      by_cases hk' : k' = k
      · subst hk'
        simp [dictGet_cons, hk]
      · have h1 : kv.1 ≠ k' := by
          rw [hk]
          exact fun hh => hk' hh.symm
        have hm := dictGet_map_set_ne rest k k' v hk'
        simp only [beq_iff_eq] at hm
        simp [dictGet_cons, h1, hk', hm]
    · rw [dictSet_cons_ne kv rest k v hk, dictGet_cons, ih]
      by_cases hkv' : kv.1 = k'
      · have h2 : k' ≠ k := by
          rw [← hkv']
          exact hk
        rw [if_pos hkv', if_neg h2, dictGet_cons, if_pos hkv']
      · rw [if_neg hkv']
        by_cases h2 : k' = k <;> simp [h2, dictGet_cons, hkv']

/-- Keys present after a left fold of `dictSet`s: those of the start dict
and those set by the fold, whatever values the update function computes. -/
theorem dictGet_foldl_dictSet {α β : Type} (g : List (String × α) → String × β → α)
    (ps : List (String × β)) (s : List (String × α)) (name : String) :
    (dictGet (ps.foldl (fun d kv => dictSet d kv.1 (g d kv)) s) name).isSome =
      ((dictGet s name).isSome || ps.any (fun kv => kv.1 == name)) := by
  induction ps generalizing s with
  | nil => simp
  | cons kv rest ih =>
    rw [List.foldl_cons, ih]
    by_cases h : name = kv.1
    · simp [dictGet_dictSet, h]
    · have hb : (kv.1 == name) = false := by
        simp [Ne.symm h]
      simp [dictGet_dictSet, h, hb]

theorem dictGet_update_schema (s : List (String × String)) (r : Record) (name : String) :
    (dictGet (update_schema s r) name).isSome =
      ((dictGet s name).isSome || r.properties.any (fun kv => kv.1 == name)) := by
  unfold update_schema
  exact dictGet_foldl_dictSet (fun d kv => get_column_type kv.2 (dictGet d kv.1)) _ s name

theorem dictGet_schema_fold (records : List Record) (s : List (String × String)) (name : String) :
    (dictGet (records.foldl update_schema s) name).isSome =
      ((dictGet s name).isSome ||
        records.any (fun r => r.properties.any (fun kv => kv.1 == name))) := by
  induction records generalizing s with
  | nil => simp
  | cons r rest ih =>
    rw [List.foldl_cons, ih, dictGet_update_schema]
    cases (dictGet s name).isSome <;> simp [Bool.or_assoc]

/-! ### The plaintext artifact -/

/-- The raw accumulated plaintext: every entry followed by `",\n"`. -/
def schema_lines_text : List (String × String) → String
  | [] => ""
  | kv :: rest => kv.1 ++ ":" ++ kv.2 ++ ",\n" ++ schema_lines_text rest

theorem schema_text_loop_fst_data (schema : List (String × String)) :
    ∀ (acc : String) (u : List String),
      ((schema.foldl
          (fun acc kv =>
            (acc.1 ++ kv.1 ++ ":" ++ kv.2 ++ ",\n",
             if kv.2 == "UNKNOWN" then acc.2 ++ [kv.1] else acc.2))
          (acc, u)).1).data = acc.data ++ (schema_lines_text schema).data := by
  induction schema with
  | nil =>
    intro acc u
    simp [schema_lines_text]
  | cons kv rest ih =>
    intro acc u
    rw [List.foldl_cons, ih]
    simp [schema_lines_text, String.data_append, List.append_assoc]

theorem schema_text_loop_fst (schema : List (String × String)) :
    ((schema_text_loop schema).1).data = (schema_lines_text schema).data := by
  unfold schema_text_loop
  rw [schema_text_loop_fst_data]
  rfl

theorem schema_text_loop_snd_acc (schema : List (String × String)) :
    ∀ (acc : String) (u : List String),
      ((schema.foldl
          (fun acc kv =>
            (acc.1 ++ kv.1 ++ ":" ++ kv.2 ++ ",\n",
             if kv.2 == "UNKNOWN" then acc.2 ++ [kv.1] else acc.2))
          (acc, u)).2) =
        u ++ (schema.filter (fun kv => kv.2 == "UNKNOWN")).map (fun kv => kv.1) := by
  induction schema with
  | nil =>
    intro acc u
    simp
  | cons kv rest ih =>
    intro acc u
    rw [List.foldl_cons, ih]
    cases h : (kv.2 == "UNKNOWN") <;> simp [List.filter_cons, h]

theorem unknown_columns_eq (schema : List (String × String)) :
    unknown_columns schema =
      (schema.filter (fun kv => kv.2 == "UNKNOWN")).map (fun kv => kv.1) := by
  unfold unknown_columns schema_text_loop
  rw [schema_text_loop_snd_acc]
  rfl

theorem schema_lines_text_data (schema : List (String × String)) (h : schema ≠ []) :
    (schema_lines_text schema).data = (joined_schema_lines schema).data ++ [',', '\n'] := by
  induction schema with
  | nil => exact absurd rfl h
  | cons kv rest ih =>
    cases rest with
    | nil =>
      simp [schema_lines_text, joined_schema_lines, String.data_append]
    | cons r t2 =>
      rw [show schema_lines_text (kv :: r :: t2) =
            (kv.1 ++ ":" ++ kv.2 ++ ",\n") ++ schema_lines_text (r :: t2) from rfl,
          show joined_schema_lines (kv :: r :: t2) =
            (kv.1 ++ ":" ++ kv.2 ++ ",\n") ++ joined_schema_lines (r :: t2) from rfl]
      simp [String.data_append, ih (by simp), List.append_assoc]

theorem schema_plaintext_eq (schema : List (String × String)) (h : schema ≠ []) :
    schema_plaintext schema = joined_schema_lines schema := by
  have hrfl : schema_plaintext schema =
      String.mk (((schema_text_loop schema).1).data.take
        (((schema_text_loop schema).1).data.length - 2)) := rfl
  have hd : ((schema_text_loop schema).1).data =
      (joined_schema_lines schema).data ++ [',', '\n'] := by
    rw [schema_text_loop_fst, schema_lines_text_data schema h]
  rw [hrfl, hd]
  have hl : ((joined_schema_lines schema).data ++ [',', '\n']).length - 2 =
      (joined_schema_lines schema).data.length := by
    simp
  rw [hl, List.take_left]

theorem line_infix_joined (schema : List (String × String)) (k t : String)
    (hm : (k, t) ∈ schema) :
    (k ++ ":" ++ t).data <:+: (joined_schema_lines schema).data := by
  induction schema with
  | nil => cases hm
  | cons kv rest ih =>
    rcases List.mem_cons.mp hm with heq | hmem
    · cases rest with
      | nil =>
        rw [← heq]
        exact List.infix_refl _
      | cons r t2 =>
        rw [show joined_schema_lines (kv :: r :: t2) =
              (kv.1 ++ ":" ++ kv.2 ++ ",\n") ++ joined_schema_lines (r :: t2) from rfl,
            String.data_append, ← heq]
        refine ⟨[], (",\n" ++ joined_schema_lines (r :: t2)).data, ?_⟩
        simp [String.data_append, List.append_assoc]
    · cases rest with
      | nil => cases hmem
      | cons r t2 =>
        rw [show joined_schema_lines (kv :: r :: t2) =
              (kv.1 ++ ":" ++ kv.2 ++ ",\n") ++ joined_schema_lines (r :: t2) from rfl,
            String.data_append]
        exact infix_of_append_left _ (ih hmem)

theorem entry_infix_json_fields (schema : List (String × String)) (k t : String)
    (hm : (k, t) ∈ schema) :
    ("\"" ++ k ++ "\": \"" ++ t ++ "\"").data <:+: (schema_json_fields schema).data := by
  induction schema with
  | nil => cases hm
  | cons kv rest ih =>
    rcases List.mem_cons.mp hm with heq | hmem
    · cases rest with
      | nil =>
        rw [← heq]
        exact List.infix_refl _
      | cons r t2 =>
        rw [show schema_json_fields (kv :: r :: t2) =
              ("\"" ++ kv.1 ++ "\": \"" ++ kv.2 ++ "\"" ++ ", ") ++
                schema_json_fields (r :: t2) from rfl,
            String.data_append, ← heq]
        refine ⟨[], (", " ++ schema_json_fields (r :: t2)).data, ?_⟩
        simp [String.data_append, List.append_assoc]
    · cases rest with
      | nil => cases hmem
      | cons r t2 =>
        rw [show schema_json_fields (kv :: r :: t2) =
              ("\"" ++ kv.1 ++ "\": \"" ++ kv.2 ++ "\"" ++ ", ") ++
                schema_json_fields (r :: t2) from rfl,
            String.data_append]
        exact infix_of_append_left _ (ih hmem)

theorem entry_infix_json (schema : List (String × String)) (k t : String)
    (hm : (k, t) ∈ schema) :
    ("\"" ++ k ++ "\": \"" ++ t ++ "\"").data <:+: (schema_json_text schema).data := by
  unfold schema_json_text
  rw [String.data_append, String.data_append]
  exact infix_of_append_right _ (infix_of_append_left _ (entry_infix_json_fields schema k t hm))

/-! ### The numbered-candidate loop -/

theorem nat_digits_list_length_pos (n : Nat) : 0 < (nat_digits_list n).length := by
  rw [nat_digits_list]
  split <;> simp

theorem format_02d_length (i : Nat) : 2 ≤ (format_02d i).data.length := by
  unfold format_02d
  split
  · next h =>
    have : (("0" ++ nat_repr i)).data = '0' :: nat_digits_list i := by
      simp [nat_repr, String.data_append]
    rw [this]
    have := nat_digits_list_length_pos i
    simp
    omega
  · next h =>
    show 2 ≤ (nat_digits_list i).length
    rw [nat_digits_list]
    rw [if_neg h]
    have := nat_digits_list_length_pos (i / 10)
    simp
    omega

theorem nat_digits_list_one : nat_digits_list 1 = ['1'] := by
  rw [nat_digits_list]
  norm_num [digit_char]

theorem nat_digits_list_hundred : nat_digits_list 100 = ['1', '0', '0'] := by
  rw [nat_digits_list, nat_digits_list, nat_digits_list]
  norm_num [digit_char]

theorem format_02d_one : format_02d 1 = "01" := by
  rw [show format_02d 1 = "0" ++ nat_repr 1 from if_pos (by norm_num), nat_repr,
    nat_digits_list_one]
  decide

theorem format_02d_hundred : format_02d 100 = "100" := by
  rw [show format_02d 100 = nat_repr 100 from if_neg (by norm_num), nat_repr,
    nat_digits_list_hundred]

theorem safe_loop_least (pr ex : String) (fs : List String) (i0 : Nat) :
    ∃ j, i0 ≤ j ∧ safe_loop pr ex false fs i0 = candidate pr ex j ∧
      candidate pr ex j ∉ fs ∧
      ∀ m, i0 ≤ m → m < j → candidate pr ex m ∈ fs := by
  refine ⟨i0 + Nat.find (safe_candidate_exists pr ex false fs i0), by omega, rfl, ?_, ?_⟩
  · have hs := Nat.find_spec (safe_candidate_exists pr ex false fs i0)
    simpa [is_output_file_safe] using hs
  · intro m him hmk
    have hlt : m - i0 < Nat.find (safe_candidate_exists pr ex false fs i0) := by omega
    have hmin := Nat.find_min (safe_candidate_exists pr ex false fs i0) hlt
    have hm : i0 + (m - i0) = m := by omega
    rw [hm] at hmin
    simpa [is_output_file_safe] using hmin

/-! ### Substring containment and the reserved-option check -/

/-- The function `safe_loop` satisfies the defining equation of the source's `while`
loop (lines 509-511): test the current candidate, and on failure move to
the next index. -/
theorem safe_loop_unfold (pr ex : String) (co : Bool) (fs : List String) (i0 : Nat) :
    safe_loop pr ex co fs i0 =
      if is_output_file_safe (candidate pr ex i0) co fs then candidate pr ex i0
      else safe_loop pr ex co fs (i0 + 1) := by
  unfold safe_loop
  by_cases h0 : is_output_file_safe (candidate pr ex i0) co fs = true
  · rw [if_pos h0]
    have hz : Nat.find (safe_candidate_exists pr ex co fs i0) = 0 :=
      (Nat.find_eq_zero _).mpr (by simpa using h0)
    rw [hz]
    rfl
  · rw [if_neg h0]
    have e1 : Nat.find (safe_candidate_exists pr ex co fs i0) =
        Nat.find (safe_candidate_exists pr ex co fs (i0 + 1)) + 1 := by
      refine (Nat.find_eq_iff _).mpr ⟨?_, ?_⟩
      · have hsp := Nat.find_spec (safe_candidate_exists pr ex co fs (i0 + 1))
        rwa [show i0 + 1 + Nat.find (safe_candidate_exists pr ex co fs (i0 + 1)) =
          i0 + (Nat.find (safe_candidate_exists pr ex co fs (i0 + 1)) + 1) by omega] at hsp
      · intro k hk
        cases k with
        | zero => simpa using h0
        | succ k2 =>
          have hk2 : k2 < Nat.find (safe_candidate_exists pr ex co fs (i0 + 1)) := by omega
          have hmin := Nat.find_min (safe_candidate_exists pr ex co fs (i0 + 1)) hk2
          rwa [show i0 + 1 + k2 = i0 + (k2 + 1) by omega] at hmin
    rw [e1, show i0 + (Nat.find (safe_candidate_exists pr ex co fs (i0 + 1)) + 1) =
      i0 + 1 + Nat.find (safe_candidate_exists pr ex co fs (i0 + 1)) by omega]

theorem py_substring_iff (n h : String) : py_substring n h = true ↔ n.data <:+: h.data := by
  unfold py_substring
  rw [List.any_eq_true]
  constructor
  · rintro ⟨i, _, hp⟩
    rw [List.isPrefixOf_iff_prefix] at hp
    obtain ⟨t, ht⟩ := hp
    refine ⟨h.data.take i, t, ?_⟩
    rw [List.append_assoc, ht, List.take_append_drop]
  · rintro ⟨s, t, heq⟩
    refine ⟨s.length, List.mem_range.mpr ?_, ?_⟩
    · have := congrArg List.length heq
      simp only [List.length_append] at this
      omega
    · rw [List.isPrefixOf_iff_prefix, ← heq, List.append_assoc, List.drop_left]
      exact ⟨t, rfl⟩

theorem reserved_option_error_isSome (s : String) :
    (reserved_option_error s).isSome = true ↔
      ∃ o ∈ reserved_convert_options, py_substring o s = true := by
  unfold reserved_option_error
  by_cases hs : s == ""
  · have hs' : s = "" := by simpa using hs
    subst hs'
    rw [if_pos (by decide)]
    constructor
    · intro h
      simp at h
    · rintro ⟨o, ho, hsub⟩
      have ho2 : o = "-f" ∨ o = "-of" ∨ o = "-t_srs" := by
        simpa [reserved_convert_options] using ho
      rcases ho2 with rfl | rfl | rfl
      · exact absurd hsub (by decide)
      · exact absurd hsub (by decide)
      · exact absurd hsub (by decide)
  · rw [if_neg hs]
    simp [Option.isSome_map, List.find?_isSome]

theorem reserved_option_error_none (s : String) :
    reserved_option_error s = none ↔
      ∀ o ∈ reserved_convert_options, py_substring o s = false := by
  unfold reserved_option_error
  by_cases hs : s == ""
  · have hs' : s = "" := by simpa using hs
    subst hs'
    rw [if_pos (by decide)]
    constructor
    · intro _ o ho
      have ho2 : o = "-f" ∨ o = "-of" ∨ o = "-t_srs" := by
        simpa [reserved_convert_options] using ho
      rcases ho2 with rfl | rfl | rfl
      · decide
      · decide
      · decide
    · intro _
      rfl
  · rw [if_neg hs]
    rw [Option.map_eq_none']
    rw [List.find?_eq_none]
    constructor
    · intro h o ho
      have := h o ho
      simpa using this
    · intro h o ho
      simp [h o ho]

/-! ### Presence of keys in rows and schemas -/

theorem dictSet_preserves_isSome {α : Type} (d : List (String × α)) (k name : String) (v : α)
    (h : (dictGet d name).isSome = true) : (dictGet (dictSet d k v) name).isSome = true := by
  rw [dictGet_dictSet]
  by_cases hk : name = k <;> simp [hk, h]

theorem dictGet_dictSet_self_isSome {α : Type} (d : List (String × α)) (k : String) (v : α) :
    (dictGet (dictSet d k v) k).isSome = true := by
  simp [dictGet_dictSet]

theorem dictGet_isSome_any {α : Type} (d : List (String × α)) (name : String) :
    (dictGet d name).isSome = d.any (fun kv => kv.1 == name) := by
  induction d with
  | nil => rfl
  | cons kv rest ih =>
    by_cases h : kv.1 = name <;> simp [dictGet_cons, h, ih]

/-! ### The schema fold restricted to one column

`infer_column_type` is exactly what the per-record schema fold of
`geojson_to_ndjson` does to a single column: the schema entry of a key
after all Records equals the fold of the values observed for that key, in
record order (Python dictionaries cannot repeat a key inside one record's
`properties`, hence the `Nodup` hypothesis). -/

theorem fold_props_no_key (ps : List (String × PValue)) (s : List (String × String))
    (key : String) (hk : ∀ kv ∈ ps, kv.1 ≠ key) :
    dictGet (ps.foldl
      (fun schema kv => dictSet schema kv.1 (get_column_type kv.2 (dictGet schema kv.1))) s)
      key = dictGet s key := by
  induction ps generalizing s with
  | nil => rfl
  | cons kv rest ih =>
    rw [List.foldl_cons, ih _ (fun kv2 h2 => hk kv2 (List.mem_cons_of_mem kv h2)),
      dictGet_dictSet, if_neg]
    intro h
    exact hk kv (List.mem_cons_self kv rest) h.symm

theorem fold_props_key (ps : List (String × PValue)) (s : List (String × String))
    (key : String) (hnd : (ps.map Prod.fst).Nodup) :
    dictGet (ps.foldl
      (fun schema kv => dictSet schema kv.1 (get_column_type kv.2 (dictGet schema kv.1))) s)
      key =
      match dictGet ps key with
      | some v => some (get_column_type v (dictGet s key))
      | none => dictGet s key := by
  induction ps generalizing s with
  | nil => rfl
  | cons kv rest ih =>
    rw [List.map_cons, List.nodup_cons] at hnd
    rw [List.foldl_cons, dictGet_cons]
    by_cases h : kv.1 = key
    · rw [if_pos h]
      have hrest : ∀ kv2 ∈ rest, kv2.1 ≠ key := by
        intro kv2 h2 hbad
        exact hnd.1 (by
          rw [← h] at hbad
          exact hbad ▸ List.mem_map_of_mem Prod.fst h2)
      rw [fold_props_no_key rest _ key hrest, h, dictGet_dictSet, if_pos rfl]
    · rw [if_neg h, ih _ hnd.2, dictGet_dictSet, if_neg (fun hh => h hh.symm)]

theorem update_schema_column (s : List (String × String)) (r : Record) (key : String)
    (hnd : (r.properties.map Prod.fst).Nodup) :
    dictGet (update_schema s r) key =
      match dictGet r.properties key with
      | some v => some (get_column_type v (dictGet s key))
      | none => dictGet s key :=
  fold_props_key r.properties s key hnd

/-- The schema entry of one key after the whole record stream equals the
one-column fold of the values the stream holds for that key. -/
theorem schema_fold_column_values (records : List Record) (key : String)
    (hnd : ∀ r ∈ records, (r.properties.map Prod.fst).Nodup) :
    dictGet (records.foldl update_schema []) key =
      infer_column_type (records.filterMap (fun r => dictGet r.properties key)) := by
  suffices h : ∀ s, dictGet (records.foldl update_schema s) key =
      (records.filterMap (fun r => dictGet r.properties key)).foldl
        (fun last v => some (get_column_type v last)) (dictGet s key) by
    rw [h [], infer_column_type]
    rfl
  induction records with
  | nil => intro s; rfl
  | cons r rest ih =>
    intro s
    rw [List.foldl_cons,
      ih (fun r2 h2 => hnd r2 (List.mem_cons_of_mem r h2)) (update_schema s r),
      update_schema_column s r key (hnd r (List.mem_cons_self r rest))]
    rcases hv : dictGet r.properties key with _ | v
    · rw [List.filterMap_cons_none (by simpa using hv)]
    · rw [List.filterMap_cons_some (by simpa using hv), List.foldl_cons]

/-! ### The geometry-derived columns -/

/-- One conditional column assignment: `if key in columns:
target[columns[key]] = v`, with the lookup already performed. -/
def opt_set {α : Type} (d : List (String × α)) (o : Option String) (v : α) :
    List (String × α) :=
  match o with
  | some n => dictSet d n v
  | none => d

theorem geojson_to_ndjson_fst (records : List Record) (columns : List (String × String)) :
    (geojson_to_ndjson records columns).1 = records.map (build_row columns) := rfl

theorem geojson_to_ndjson_snd (records : List Record) (columns : List (String × String)) :
    (geojson_to_ndjson records columns).2 =
      opt_set (opt_set (opt_set (records.foldl update_schema [])
        (dictGet columns "geometry") "GEOGRAPHY")
        (dictGet columns "geojson") "STRING")
        (dictGet columns "geojson_geometry") "STRING" := by
  unfold geojson_to_ndjson opt_set
  rcases dictGet columns "geometry" with _ | n1 <;>
    rcases dictGet columns "geojson" with _ | n2 <;>
      rcases dictGet columns "geojson_geometry" with _ | n3 <;> rfl

theorem build_row_eq (columns : List (String × String)) (r : Record) :
    build_row columns r =
      opt_set (opt_set (opt_set
        (r.properties.foldl (fun row kv => dictSet row kv.1 (.prop kv.2)) [])
        (dictGet columns "geometry") (.text (Json.dumps r.geometry)))
        (dictGet columns "geojson") (.text (Json.dumps r.line_item)))
        (dictGet columns "geojson_geometry") (.text (Json.dumps r.geometry)) := by
  unfold build_row opt_set
  rcases dictGet columns "geometry" with _ | n1 <;>
    rcases dictGet columns "geojson" with _ | n2 <;>
      rcases dictGet columns "geojson_geometry" with _ | n3 <;> rfl

theorem dictGet_opt_set_ne {α : Type} (d : List (String × α)) (o : Option String) (v : α)
    (name : String) (ho : o ≠ some name) :
    dictGet (opt_set d o v) name = dictGet d name := by
  cases o with
  | none => rfl
  | some n =>
    rw [opt_set, dictGet_dictSet, if_neg]
    intro h
    exact ho (by rw [h])

theorem dictGet_opt_set_self {α : Type} (d : List (String × α)) (v : α) (name : String) :
    dictGet (opt_set d (some name) v) name = some v := by
  simp [opt_set, dictGet_dictSet]

theorem dictGet_opt_set_isSome_mono {α : Type} (d : List (String × α)) (o : Option String)
    (v : α) (name : String) (h : (dictGet d name).isSome = true) :
    (dictGet (opt_set d o v) name).isSome = true := by
  cases o with
  | none => exact h
  | some n => exact dictSet_preserves_isSome d n name v h

theorem dictGet_opt_set_cases {α : Type} (d : List (String × α)) (o : Option String)
    (v : α) (name : String) (h : (dictGet (opt_set d o v) name).isSome = true) :
    o = some name ∨ (dictGet d name).isSome = true := by
  cases o with
  | none => exact Or.inr h
  | some n =>
    by_cases hn : name = n
    · exact Or.inl (by rw [hn])
    · rw [opt_set, dictGet_dictSet, if_neg hn] at h
      exact Or.inr h

/-- Two distinct configured keys cannot share one output column name when
the configured names are distinct (`Nodup` of the configured name list). -/
theorem config_names_distinct (columns : List (String × String))
    (hnd : (default_column_names.filterMap (fun k => dictGet columns k)).Nodup)
    (k1 k2 name : String) (hk1 : k1 ∈ default_column_names) (hk2 : k2 ∈ default_column_names)
    (hne : k1 ≠ k2) (e1 : dictGet columns k1 = some name) :
    dictGet columns k2 ≠ some name := by
  intro e2
  rcases hg : dictGet columns "geometry" with _ | m1 <;>
    rcases hj : dictGet columns "geojson" with _ | m2 <;>
      rcases hgg : dictGet columns "geojson_geometry" with _ | m3 <;>
        simp only [default_column_names, List.mem_cons, List.not_mem_nil, or_false] at hk1 hk2 <;>
        simp [default_column_names, hg, hj, hgg] at hnd <;>
        rcases hk1 with rfl | rfl | rfl <;>
          rcases hk2 with rfl | rfl | rfl <;>
            simp_all

/-! ## The claims -/

/-- C1, counterexample: the claim's literal reading fails on the code at two
concrete inputs.  A column holding only the boolean `True` is inferred as
INTEGER, not BOOLEAN (Python's `isinstance(True, int)` is true and the
integer check runs before the boolean check); and a column holding `5` and
then `null` is inferred as UNKNOWN, not INTEGER (a null value resets a
non-STRING state). -/
theorem c1_counterexample :
    dictGet ([⟨[("pop", PValue.vbool true)], Json.null⟩].foldl update_schema
      ([] : List (String × String))) "pop" = some "INTEGER" ∧
    c1_claimed_type [PValue.vbool true] = "BOOLEAN" ∧
    dictGet ([⟨[("pop", PValue.vint 5)], Json.null⟩,
        ⟨[("pop", PValue.vnull)], Json.null⟩].foldl update_schema
      ([] : List (String × String))) "pop" = some "UNKNOWN" ∧
    c1_claimed_type [PValue.vint 5, PValue.vnull] = "INTEGER" := by
  refine ⟨by decide, by decide, by decide, by decide⟩

/-- C1, amended: for every stream of Records and every column, once the
column was observed at least once, the schema entry the record loop leaves
for it is determined by the observed value sequence as follows — STRING if
any value was a string; otherwise only the values after the last null
count: UNKNOWN when there are none, FLOAT when any of them is a float,
else INTEGER (booleans classify as integers). -/
theorem c1_final_type (records : List Record) (key : String)
    (hnd : ∀ r ∈ records, (r.properties.map Prod.fst).Nodup)
    (hne : records.filterMap (fun r => dictGet r.properties key) ≠ []) :
    dictGet (records.foldl update_schema []) key =
      some (spec_final_type (records.filterMap (fun r => dictGet r.properties key))) := by
  rw [schema_fold_column_values records key hnd, infer_column_type_eq]
  simp [List.isEmpty_iff, hne]

/-- C1, witness: the amended characterization evaluated on a concrete
record stream. -/
theorem c1_witness :
    dictGet ([⟨[("pop", PValue.vstr "n/a")], Json.null⟩].foldl update_schema
      ([] : List (String × String))) "pop" = some "STRING" := by
  have h := c1_final_type [⟨[("pop", PValue.vstr "n/a")], Json.null⟩] "pop"
    (by decide) (by decide)
  rw [h]
  decide

/-- C2, counterexample: a null value downgrades a concrete INTEGER state to
UNKNOWN, contradicting the claim that a concrete state is never replaced by
UNKNOWN. -/
theorem c2_counterexample :
    get_column_type PValue.vnull (some "INTEGER") = "UNKNOWN" ∧ "UNKNOWN" ≠ "INTEGER" := by
  constructor <;> decide

/-- C2, amended, per merge step of `get_column_type`: a STRING state is
permanent; a FLOAT state absorbs an INTEGER value (also a boolean value,
classified as integer); an INTEGER state becomes FLOAT on a float value;
an UNKNOWN state is replaced by the value's own classification for every
non-null value; but a null value replaces an INTEGER, FLOAT or BOOLEAN
state with UNKNOWN — only a STRING state survives a null. -/
theorem c2_merge_step (v : PValue) (n : Int) (q : Rat) (b : Bool) (t : String) :
    (get_column_type v (some "STRING") = "STRING") ∧
    (get_column_type (.vint n) (some "FLOAT") = "FLOAT") ∧
    (get_column_type (.vbool b) (some "FLOAT") = "FLOAT") ∧
    (get_column_type (.vfloat q) (some "INTEGER") = "FLOAT") ∧
    (is_none v = false → get_column_type v (some "UNKNOWN") = get_column_type v none) ∧
    (t = "INTEGER" ∨ t = "FLOAT" ∨ t = "BOOLEAN" →
        get_column_type .vnull (some t) = "UNKNOWN") := by
  refine ⟨?_, by simp, by simp, by simp, ?_, ?_⟩
  · cases v <;> simp
  · intro hv
    cases v <;> simp_all [is_none]
  · rintro (rfl | rfl | rfl) <;> simp

/-- C2, witness: the step lemmas at concrete inputs. -/
theorem c2_witness :
    get_column_type (.vint 3) (some "FLOAT") = "FLOAT" ∧
    get_column_type .vnull (some "FLOAT") = "UNKNOWN" := by
  have h := c2_merge_step (PValue.vint 3) 3 1 true "FLOAT"
  exact ⟨h.2.1, h.2.2.2.2.2 (by simp)⟩

/-- C3, counterexample: folding the same multiset of values in two orders
gives different final types — `[5, null]` infers UNKNOWN while the permuted
`[null, 5]` infers INTEGER — so the merge is not order-independent. -/
theorem c3_counterexample :
    List.Perm [PValue.vint 5, PValue.vnull] [PValue.vnull, PValue.vint 5] ∧
    infer_column_type [PValue.vint 5, PValue.vnull] = some "UNKNOWN" ∧
    infer_column_type [PValue.vnull, PValue.vint 5] = some "INTEGER" := by
  refine ⟨by decide, by decide, by decide⟩

/-- C3, amended: the fold is order-independent for columns without null
values — every permutation of a null-free value list yields the same final
inferred type. -/
theorem c3_perm_of_no_null (l1 l2 : List PValue) (hp : l1.Perm l2)
    (hn : ∀ v ∈ l1, is_none v = false) :
    infer_column_type l1 = infer_column_type l2 := by
  rw [infer_column_type_eq, infer_column_type_eq]
  have hlen := hp.length_eq
  by_cases h1 : l1.isEmpty
  · have e1 : l1 = [] := List.isEmpty_iff.mp h1
    subst e1
    have e2 : l2 = [] := by
      cases l2 with
      | nil => rfl
      | cons a tl => simp at hlen
    subst e2
    rfl
  · have h1' : l1.isEmpty = false := by simpa using h1
    have h2' : l2.isEmpty = false := by
      cases l2 with
      | nil =>
        have : l1 = [] := List.length_eq_zero.mp (by simpa using hlen)
        rw [this] at h1'
        simp at h1'
      | cons a tl => rfl
    have hn2 : ∀ v ∈ l2, is_none v = false := fun v hv => hn v (hp.mem_iff.mpr hv)
    have e1 := null_free_suffix_of_no_null l1 hn
    have e2 := null_free_suffix_of_no_null l2 hn2
    simp only [h1', h2', Bool.false_eq_true, if_false]
    unfold spec_final_type
    rw [e1, e2, perm_any l1 l2 hp isinstance_str, perm_any l1 l2 hp isinstance_float, h1', h2']

/-- C3, witness: the amended order-independence applied to a concrete
null-free permutation. -/
theorem c3_witness :
    infer_column_type [PValue.vint 1, PValue.vfloat 2] =
      infer_column_type [PValue.vfloat 2, PValue.vint 1] :=
  c3_perm_of_no_null _ _ (by decide) (by decide)

/-- C5: three Records whose column `pop` holds `5`, `7.5` and `"n/a"` in
that order make the final inferred type of `pop` STRING. -/
theorem c5_pop_inferred_string :
    dictGet (geojson_to_ndjson
      [⟨[("pop", PValue.vint 5)], Json.null⟩,
       ⟨[("pop", PValue.vfloat (15 / 2))], Json.null⟩,
       ⟨[("pop", PValue.vstr "n/a")], Json.null⟩]
      [("geometry", "geometry")]).2 "pop" = some "STRING" := by
  decide

/-- C6: for a non-empty schema, the plaintext artifact is exactly the
`name:TYPE` entries joined by `",\n"` — each line but the last ends in a
comma and nothing trails the last entry. -/
theorem c6_plaintext_rendering (schema : List (String × String)) (h : schema ≠ []) :
    schema_plaintext schema = joined_schema_lines schema :=
  schema_plaintext_eq schema h

/-- C6, witness: the schema `{"a": "STRING", "b": "INTEGER"}` renders
exactly as `a:STRING,\nb:INTEGER`. -/
theorem c6_witness :
    schema_plaintext [("a", "STRING"), ("b", "INTEGER")] = "a:STRING,\nb:INTEGER" := by
  have h := c6_plaintext_rendering [("a", "STRING"), ("b", "INTEGER")] (by decide)
  rw [h]
  decide

/-- C7: a free target path is returned unchanged; an existing target
without overwrite authorization yields the first free numbered candidate
`root_NN.ext` (suffix inserted before the extension, counting from `_01`);
the numeric suffix is zero-padded to at least two characters and grows
naturally past 99. -/
theorem c7_safe_filepath (initial : String) (fs : List String) :
    (∀ co, initial ∉ fs → get_safe_filepath initial co true fs = initial) ∧
    (initial ∈ fs →
      ∃ j, 1 ≤ j ∧
        get_safe_filepath initial false true fs =
          candidate (splitext initial).1 (splitext initial).2 j ∧
        candidate (splitext initial).1 (splitext initial).2 j ∉ fs ∧
        (∀ m, 1 ≤ m → m < j →
          candidate (splitext initial).1 (splitext initial).2 m ∈ fs)) ∧
    (∀ i, 2 ≤ (format_02d i).data.length) ∧
    format_02d 1 = "01" ∧ format_02d 100 = "100" := by
  refine ⟨?_, ?_, format_02d_length, format_02d_one, format_02d_hundred⟩
  · intro co hmem
    have hsafe : is_output_file_safe initial co fs = true := by
      simp [is_output_file_safe, hmem]
    simp [get_safe_filepath, hsafe]
  · intro hmem
    have hunsafe : is_output_file_safe initial false fs = false := by
      simp [is_output_file_safe, hmem]
    have hloop : get_safe_filepath initial false true fs =
        safe_loop (splitext initial).1 (splitext initial).2 false fs 1 := by
      simp [get_safe_filepath, hunsafe]
    obtain ⟨j, hj1, hj2, hj3, hj4⟩ :=
      safe_loop_least (splitext initial).1 (splitext initial).2 fs 1
    exact ⟨j, hj1, by rw [hloop, hj2], hj3, hj4⟩

/-- C7, witness: a target that does not exist is returned unchanged. -/
theorem c7_witness :
    get_safe_filepath "d/f.json" false true [] = "d/f.json" :=
  (c7_safe_filepath "d/f.json" []).1 false (by decide)

/-- C8: a convert-options string containing a reserved directive is
rejected with an error, and one containing none of them raises no
reserved-option error. -/
theorem c8_reserved_rejection (s : String) :
    ((∃ o ∈ reserved_convert_options, o.data <:+: s.data) →
        (reserved_option_error s).isSome = true) ∧
    ((∀ o ∈ reserved_convert_options, ¬ o.data <:+: s.data) →
        reserved_option_error s = none) := by
  constructor
  · rintro ⟨o, ho, hsub⟩
    rw [reserved_option_error_isSome]
    exact ⟨o, ho, (py_substring_iff o s).mpr hsub⟩
  · intro h
    rw [reserved_option_error_none]
    intro o ho
    cases hps : py_substring o s
    · rfl
    · exact absurd ((py_substring_iff o s).mp hps) (h o ho)

/-- C8, witness: a concrete rejected string and a concrete accepted one. -/
theorem c8_witness :
    (reserved_option_error "-t_srs EPSG:4326").isSome = true ∧
    reserved_option_error "-sql x" = none := by
  constructor
  · exact (c8_reserved_rejection "-t_srs EPSG:4326").1 ⟨"-t_srs", by decide, by decide⟩
  · exact (c8_reserved_rejection "-sql x").2 (by decide)

/-- C10: the reserved-option check is plain substring containment — a
string is rejected exactly when it contains `-f`, `-of` or `-t_srs` as a
character subsequence, so `-fieldmap` (which contains `-f`) is rejected
too, and the error names `-f`. -/
theorem c10_substring_detection (s : String) :
    ((reserved_option_error s).isSome = true ↔
      ("-f".data <:+: s.data ∨ "-of".data <:+: s.data ∨ "-t_srs".data <:+: s.data)) ∧
    reserved_option_error "-fieldmap" =
      some ("Invalid Option: \"-f\" is reserved and cannot be used within " ++
        "--convert_options / -v") := by
  constructor
  · rw [reserved_option_error_isSome]
    constructor
    · rintro ⟨o, ho, hsub⟩
      have ho2 : o = "-f" ∨ o = "-of" ∨ o = "-t_srs" := by
        simpa [reserved_convert_options] using ho
      have hi := (py_substring_iff o s).mp hsub
      rcases ho2 with rfl | rfl | rfl
      · exact Or.inl hi
      · exact Or.inr (Or.inl hi)
      · exact Or.inr (Or.inr hi)
    · rintro (hi | hi | hi)
      · exact ⟨"-f", by simp [reserved_convert_options], (py_substring_iff _ s).mpr hi⟩
      · exact ⟨"-of", by simp [reserved_convert_options], (py_substring_iff _ s).mpr hi⟩
      · exact ⟨"-t_srs", by simp [reserved_convert_options], (py_substring_iff _ s).mpr hi⟩
  · decide

/-- C10, witness: a string containing `-of` is rejected. -/
theorem c10_witness : (reserved_option_error "x -of y").isSome = true :=
  ((c10_substring_detection "x -of y").1).mpr (Or.inr (Or.inl (by decide)))

/-- C9: an UNKNOWN column is not fatal — the artifacts are still produced;
the warning list holds exactly the UNKNOWN columns; the warning fires
exactly when one exists; and every UNKNOWN column is emitted with type
UNKNOWN into both the JSON artifact and the plaintext artifact. -/
theorem c9_unknown_not_fatal (schema : List (String × String)) :
    (unknown_columns schema =
      (schema.filter (fun kv => kv.2 == "UNKNOWN")).map (fun kv => kv.1)) ∧
    (warning_printed schema = true ↔ ∃ k, (k, "UNKNOWN") ∈ schema) ∧
    (∀ k, (k, "UNKNOWN") ∈ schema →
        ("\"" ++ k ++ "\": \"" ++ "UNKNOWN" ++ "\"").data <:+: (schema_json_text schema).data) ∧
    (∀ k, (k, "UNKNOWN") ∈ schema →
        (k ++ ":" ++ "UNKNOWN").data <:+: (schema_plaintext schema).data) := by
  refine ⟨unknown_columns_eq schema, ?_, ?_, ?_⟩
  · constructor
    · intro hw
      have hpos : 0 < ((schema.filter (fun kv => kv.2 == "UNKNOWN")).map
          (fun kv => kv.1)).length := by
        simpa [warning_printed, unknown_columns_eq] using hw
      obtain ⟨x, hx⟩ := List.exists_mem_of_length_pos hpos
      obtain ⟨kv, hkv, rfl⟩ := List.mem_map.mp hx
      have hkv2 := List.mem_filter.mp hkv
      have hu : kv.2 = "UNKNOWN" := by simpa using hkv2.2
      have hm := hkv2.1
      rw [show kv = (kv.1, "UNKNOWN") from Prod.ext rfl hu] at hm
      exact ⟨kv.1, hm⟩
    · rintro ⟨k, hk⟩
      have hmf : (k, "UNKNOWN") ∈ schema.filter (fun kv => kv.2 == "UNKNOWN") :=
        List.mem_filter.mpr ⟨hk, by simp⟩
      have hmm : k ∈ (schema.filter (fun kv => kv.2 == "UNKNOWN")).map (fun kv => kv.1) :=
        List.mem_map.mpr ⟨(k, "UNKNOWN"), hmf, rfl⟩
      have hpos := List.length_pos_of_mem hmm
      simpa [warning_printed, unknown_columns_eq] using hpos
  · intro k hk
    exact entry_infix_json schema k "UNKNOWN" hk
  · intro k hk
    have hne : schema ≠ [] := by
      rintro rfl
      cases hk
    rw [schema_plaintext_eq schema hne]
    exact line_infix_joined schema k "UNKNOWN" hk

/-- C9, witness: a concrete schema with one UNKNOWN column. -/
theorem c9_witness :
    warning_printed [("a", "UNKNOWN"), ("b", "STRING")] = true ∧
    unknown_columns [("a", "UNKNOWN"), ("b", "STRING")] = ["a"] := by
  have h := c9_unknown_not_fatal [("a", "UNKNOWN"), ("b", "STRING")]
  refine ⟨h.2.1.mpr ⟨"a", by decide⟩, ?_⟩
  rw [h.1]
  decide

/-- C4, counterexample: a configuration mapping two keys to one name
violates the claim — with `{"geometry": "x", "geojson": "x"}` and no
records the final schema holds `x : STRING`, not the GEOGRAPHY entry the
claim promises for the configured geometry column (the later fixed
assignment overwrites the earlier one). -/
theorem c4_counterexample :
    dictGet (geojson_to_ndjson [] [("geometry", "x"), ("geojson", "x")]).2 "x" =
      some "STRING" ∧ some "STRING" ≠ some "GEOGRAPHY" := by
  constructor <;> decide

/-- C4, amended: provided the configured names are pairwise distinct,
exactly the configured geometry-derived columns appear under their
configured names — with fixed schema types GEOGRAPHY / STRING / STRING
independent of the records — in the final schema and in every output row;
any other name in the schema or a row comes from a Record's properties. -/
theorem c4_geometry_columns (columns : List (String × String)) (records : List Record)
    (hnd : (default_column_names.filterMap (fun k => dictGet columns k)).Nodup) :
    (∀ name, dictGet columns "geometry" = some name →
        dictGet (geojson_to_ndjson records columns).2 name = some "GEOGRAPHY") ∧
    (∀ name, dictGet columns "geojson" = some name →
        dictGet (geojson_to_ndjson records columns).2 name = some "STRING") ∧
    (∀ name, dictGet columns "geojson_geometry" = some name →
        dictGet (geojson_to_ndjson records columns).2 name = some "STRING") ∧
    (∀ k name, k ∈ default_column_names → dictGet columns k = some name →
        ∀ row ∈ (geojson_to_ndjson records columns).1, (dictGet row name).isSome = true) ∧
    (∀ name, (dictGet (geojson_to_ndjson records columns).2 name).isSome = true →
        (∃ r ∈ records, (dictGet r.properties name).isSome = true) ∨
        (∃ k ∈ default_column_names, dictGet columns k = some name)) ∧
    (∀ row ∈ (geojson_to_ndjson records columns).1, ∀ name,
        (dictGet row name).isSome = true →
        (∃ r ∈ records, (dictGet r.properties name).isSome = true) ∨
        (∃ k ∈ default_column_names, dictGet columns k = some name)) := by
  have hmemg : "geometry" ∈ default_column_names := by simp [default_column_names]
  have hmemj : "geojson" ∈ default_column_names := by simp [default_column_names]
  have hmemgg : "geojson_geometry" ∈ default_column_names := by simp [default_column_names]
  refine ⟨?_, ?_, ?_, ?_, ?_, ?_⟩
  · intro name h1
    have hne2 := config_names_distinct columns hnd "geometry" "geojson" name
      hmemg hmemj (by decide) h1
    have hne3 := config_names_distinct columns hnd "geometry" "geojson_geometry" name
      hmemg hmemgg (by decide) h1
    rw [geojson_to_ndjson_snd, dictGet_opt_set_ne _ _ _ _ hne3,
      dictGet_opt_set_ne _ _ _ _ hne2, h1, dictGet_opt_set_self]
  · intro name h2
    have hne3 := config_names_distinct columns hnd "geojson" "geojson_geometry" name
      hmemj hmemgg (by decide) h2
    rw [geojson_to_ndjson_snd, dictGet_opt_set_ne _ _ _ _ hne3, h2, dictGet_opt_set_self]
  · intro name h3
    rw [geojson_to_ndjson_snd, h3, dictGet_opt_set_self]
  · intro k name hk hkc row hrow
    rw [geojson_to_ndjson_fst] at hrow
    obtain ⟨r, hr, rfl⟩ := List.mem_map.mp hrow
    rw [build_row_eq]
    have hkk : k = "geometry" ∨ k = "geojson" ∨ k = "geojson_geometry" := by
      simpa [default_column_names] using hk
    rcases hkk with rfl | rfl | rfl
    · apply dictGet_opt_set_isSome_mono
      apply dictGet_opt_set_isSome_mono
      rw [hkc]
      simp [dictGet_opt_set_self]
    · apply dictGet_opt_set_isSome_mono
      rw [hkc]
      simp [dictGet_opt_set_self]
    · rw [hkc]
      simp [dictGet_opt_set_self]
  · intro name hs
    rw [geojson_to_ndjson_snd] at hs
    rcases dictGet_opt_set_cases _ _ _ _ hs with hcase | hs2
    · exact Or.inr ⟨"geojson_geometry", hmemgg, hcase⟩
    rcases dictGet_opt_set_cases _ _ _ _ hs2 with hcase | hs3
    · exact Or.inr ⟨"geojson", hmemj, hcase⟩
    rcases dictGet_opt_set_cases _ _ _ _ hs3 with hcase | hs4
    · exact Or.inr ⟨"geometry", hmemg, hcase⟩
    · rw [dictGet_schema_fold] at hs4
      simp only [dictGet_nil, Option.isSome_none, Bool.false_or] at hs4
      rw [List.any_eq_true] at hs4
      obtain ⟨r, hr, hrany⟩ := hs4
      refine Or.inl ⟨r, hr, ?_⟩
      rw [dictGet_isSome_any]
      exact hrany
  · intro row hrow name hs
    rw [geojson_to_ndjson_fst] at hrow
    obtain ⟨r, hr, rfl⟩ := List.mem_map.mp hrow
    rw [build_row_eq] at hs
    rcases dictGet_opt_set_cases _ _ _ _ hs with hcase | hs2
    · exact Or.inr ⟨"geojson_geometry", hmemgg, hcase⟩
    rcases dictGet_opt_set_cases _ _ _ _ hs2 with hcase | hs3
    · exact Or.inr ⟨"geojson", hmemj, hcase⟩
    rcases dictGet_opt_set_cases _ _ _ _ hs3 with hcase | hs4
    · exact Or.inr ⟨"geometry", hmemg, hcase⟩
    · have hfold := dictGet_foldl_dictSet
        (fun _ kv => RowValue.prop kv.2) r.properties [] name
      rw [hfold] at hs4
      simp only [dictGet_nil, Option.isSome_none, Bool.false_or] at hs4
      refine Or.inl ⟨r, hr, ?_⟩
      rw [dictGet_isSome_any]
      exact hs4

/-- C4, witness: with the default configuration `{"geometry": "geom"}` and
no records, the schema holds `geom : GEOGRAPHY`. -/
theorem c4_witness :
    dictGet (geojson_to_ndjson [] [("geometry", "geom")]).2 "geom" = some "GEOGRAPHY" := by
  have h := c4_geometry_columns [("geometry", "geom")] [] (by decide)
  exact h.1 "geom" (by decide)

end Ogr2bq
